import Mathlib

/-!
Verification of the credential-based login and session-refresh flow of the
Gravitino web console (web/src/app/login/page.js), together with a model of
the auth store it dispatches into.  Form values, the validation schema, the
default values, the submit/error handlers and the interval-clearing effect
are embedded directly from page.js; the store actions (loginAction,
setIntervalIdAction, the clearIntervalId reducer), whose source is not part
of the supplied files, are modelled from the specification of the Token
Exchange Client and the Session Refresh Scheduler.
-/

/-- The shape of the login form (page.js defaultValues / schema): the four
fields grant_type, client_id, client_secret and scope, all strings. -/
structure FormValues where
  grant_type : String
  client_id : String
  client_secret : String
  scope : String
deriving DecidableEq, Repr

/-- page.js lines 38-43: the default form values.  grant_type is initialised
to the single supported value; the other three fields start empty. -/
def defaultValues : FormValues :=
  { grant_type := "client_credentials"
    client_id := ""
    client_secret := ""
    scope := "" }

/-- Names of the four form fields, used for field-level validation errors. -/
inductive FormField where
  | grantType
  | clientId
  | clientSecret
  | scope
deriving DecidableEq, Repr

/-- page.js lines 45-50: the yup schema.  Every field is a required string;
for a yup string schema, required rejects the empty string.  The result is
the list of fields whose validation failed, in schema order. -/
def schemaErrors (v : FormValues) : List FormField :=
  (if v.grant_type = "" then [FormField.grantType] else []) ++
  (if v.client_id = "" then [FormField.clientId] else []) ++
  (if v.client_secret = "" then [FormField.clientSecret] else []) ++
  (if v.scope = "" then [FormField.scope] else [])

/-- Modelled from the spec: a Session holds the access token returned by a
successful exchange and its validity window (expiresIn). -/
structure Session where
  accessToken : String
  expiresIn : Nat
deriving DecidableEq, Repr

/-- Modelled from the spec: the outcome of one token exchange, either a fresh
token with its expiry or an AuthError signalled as a value, without throwing
raw transport errors to the caller. -/
inductive ExchangeResult where
  | success (accessToken : String) (expiresIn : Nat)
  | authError
deriving DecidableEq, Repr

/-- The auth slice of the Redux store as the page sees it: the current
session (if any) and store.intervalId, the handle of the armed refresh
timer (if any). -/
structure AuthState where
  session : Option Session
  intervalId : Option Nat
deriving DecidableEq, Repr

/-- Externally visible effects, recorded in order of occurrence: a network
call to the token-exchange endpoint with its request, the arming of an
interval timer with its handle, and the console.error log of field-level
validation errors. -/
inductive Event where
  | exchangeCall (params : FormValues)
  | timerArmed (handle : Nat)
  | logFieldErrors (errs : List FormField)
deriving DecidableEq, Repr

/-- The world the page acts on: the auth store, the set of interval handles
currently live at the host timer facility, a counter supplying fresh
handles, and the trace of externally visible effects. -/
structure World where
  auth : AuthState
  liveTimers : List Nat
  nextHandle : Nat
  trace : List Event
deriving DecidableEq, Repr

/-- The initial store: no session, no interval id. -/
def initAuth : AuthState := { session := none, intervalId := none }

/-- The initial world: fresh store, no live timers, empty trace. -/
def initWorld : World :=
  { auth := initAuth, liveTimers := [], nextHandle := 0, trace := [] }

/-- Modelled from the spec: loginAction, the Token Exchange Client.  It makes
a single exchange attempt per call (recorded in the trace) and, on success,
creates a Session from the returned token and expiry.  On AuthError the
error is surfaced to the user and no session is created; the error is
signalled as a value, so the caller continues normally. -/
def loginActionDispatch (res : ExchangeResult) (params : FormValues) (w : World) : World :=
  { w with
    trace := w.trace ++ [Event.exchangeCall params]
    auth := { w.auth with
      session :=
        match res with
        | ExchangeResult.success t e => some { accessToken := t, expiresIn := e }
        | ExchangeResult.authError => w.auth.session } }

/-- Modelled from the spec: setIntervalIdAction, the arming step of the
Session Refresh Scheduler.  It schedules a single recurring timer at the
host timer facility and records the returned handle in store.intervalId.
Cancelling a pre-existing handle is a separate operation, the clear
operation dispatched by the caller before re-arming. -/
def setIntervalIdDispatch (w : World) : World :=
  { auth := { w.auth with intervalId := some w.nextHandle }
    liveTimers := w.liveTimers ++ [w.nextHandle]
    nextHandle := w.nextHandle + 1
    trace := w.trace ++ [Event.timerArmed w.nextHandle] }

/-- The host clearInterval primitive: clearing a null handle does nothing,
clearing a handle removes it from the live set. -/
def clearIntervalOS (timers : List Nat) : Option Nat → List Nat
  | none => timers
  | some h => timers.erase h

/-- Modelled from the spec: the clearIntervalId reducer, the cancellation
operation of the Session Refresh Scheduler.  When dispatched, it clears the
stored interval handle at the host timer facility and empties
store.intervalId. -/
def clearIntervalIdApply (w : World) : World :=
  { w with
    liveTimers := clearIntervalOS w.liveTimers w.auth.intervalId
    auth := { w.auth with intervalId := none } }

/-- The actions of the auth slice that page.js can produce.  An action value
changes the store only if it is dispatched. -/
inductive AuthAction where
  | clearId
deriving DecidableEq, Repr

/-- The action creator clearIntervalId imported by page.js: calling it only
builds the action value; the store changes only when that value is
dispatched. -/
def clearIntervalIdCreator : AuthAction := AuthAction.clearId

/-- Dispatching an auth action runs the corresponding reducer. -/
def dispatchAuth (w : World) : AuthAction → World
  | AuthAction.clearId => clearIntervalIdApply w

/-- page.js lines 68-72: the effect run when store.intervalId changes.  If
store.intervalId is set, clearIntervalId() is evaluated as a bare
expression: the action value it returns is discarded and never dispatched,
so neither the store nor the live timers change. -/
def loginPageIntervalEffect (w : World) : World :=
  if (w.auth.intervalId).isSome then
    let _discarded : AuthAction := clearIntervalIdCreator
    w
  else
    w

/-- page.js lines 74-79: onSubmit.  Dispatch loginAction with the validated
data, then dispatch setIntervalIdAction, then reset the form to a copy of
the submitted data.  The second component of the result is the form state
after reset. -/
def onSubmitRun (res : ExchangeResult) (data : FormValues) (w : World) : World × FormValues :=
  let w1 := loginActionDispatch res data w
  let w2 := setIntervalIdDispatch w1
  (w2, data)

/-- page.js lines 81-83: onError.  Logs the field errors with console.error
and does nothing else. -/
def onError (errs : List FormField) (w : World) : World :=
  { w with trace := w.trace ++ [Event.logFieldErrors errs] }

/-- page.js line 102: handleSubmit(onSubmit, onError), the react-hook-form
submission contract with the yup resolver: validate the current form values
against the schema; when validation passes call onSubmit with the values,
otherwise call onError with the field errors and leave the form values as
they are. -/
def submitForm (res : ExchangeResult) (w : World) (form : FormValues) : World × FormValues :=
  match schemaErrors form with
  | [] => onSubmitRun res form w
  | errs => (onError errs w, form)

/-- The fields the user can type into.  The grant_type TextField is rendered
disabled (page.js lines 105-119), so it is not editable. -/
inductive EditableField where
  | clientId
  | clientSecret
  | scope
deriving DecidableEq, Repr

/-- A user edit writes the typed string into the corresponding enabled
field. -/
def setField (v : FormValues) : EditableField → String → FormValues
  | EditableField.clientId, s => { v with client_id := s }
  | EditableField.clientSecret, s => { v with client_secret := s }
  | EditableField.scope, s => { v with scope := s }

/-- The events the login page can experience: a user edit of an enabled
field, a re-run of the interval-clearing effect, and a form submission whose
exchange (if reached) yields the given result. -/
inductive PageEvent where
  | edit (f : EditableField) (s : String)
  | renderEffect
  | submit (res : ExchangeResult)
deriving DecidableEq, Repr

/-- The page state: the world (store, timers, trace) plus the current form
values. -/
structure PageState where
  world : World
  form : FormValues
deriving DecidableEq, Repr

/-- The page state on first render: initial world, default form values. -/
def initPageState : PageState := { world := initWorld, form := defaultValues }

/-- One step of the page: edits update the form, the effect touches the
world, a submit runs handleSubmit(onSubmit, onError). -/
def step (e : PageEvent) (s : PageState) : PageState :=
  match e with
  | PageEvent.edit f v => { s with form := setField s.form f v }
  | PageEvent.renderEffect => { s with world := loginPageIntervalEffect s.world }
  | PageEvent.submit res =>
      let r := submitForm res s.world s.form
      { world := r.1, form := r.2 }

/-- Run a sequence of page events from a state. -/
def run : List PageEvent → PageState → PageState
  | [], s => s
  | e :: evs, s => run evs (step e s)

/-- Number of token-exchange network calls recorded in a trace. -/
def countExchange (t : List Event) : Nat :=
  (t.filter fun e =>
    match e with
    | Event.exchangeCall _ => true
    | _ => false).length

/-- A fully filled credential request with the fixed grant type. -/
def validReq : FormValues :=
  { grant_type := "client_credentials", client_id := "a", client_secret := "b", scope := "c" }

/-- Two successful logins in a row, with the interval-clearing effect
re-running between them as React does when store.intervalId changes. -/
def loginTwiceSeq : List PageEvent :=
  [ PageEvent.edit EditableField.clientId "a"
  , PageEvent.edit EditableField.clientSecret "b"
  , PageEvent.edit EditableField.scope "c"
  , PageEvent.submit (ExchangeResult.success "tok1" 3000)
  , PageEvent.renderEffect
  , PageEvent.submit (ExchangeResult.success "tok2" 3000) ]

theorem schemaErrors_nil_iff (v : FormValues) :
    schemaErrors v = [] ↔
      (v.grant_type ≠ "" ∧ v.client_id ≠ "" ∧ v.client_secret ≠ "" ∧ v.scope ≠ "") := by
  unfold schemaErrors
  split <;> split <;> split <;> split <;> simp_all

theorem loginPageIntervalEffect_eq (w : World) : loginPageIntervalEffect w = w := by
  unfold loginPageIntervalEffect
  split <;> rfl

/-- C1 (code bug evaluation).  The claim states that at most one refresh
timer handle is live at any time and that any pre-existing interval handle
is cancelled before a new one is created, so a second login never leaves two
concurrent refresh timers.  Running the page on two successful logins, with
the interval-clearing effect re-running between them, leaves the two
interval handles 0 and 1 simultaneously live: the effect evaluates
clearIntervalId() without dispatching it, so the first handle is never
cancelled. -/
theorem second_login_leaves_two_live_timers :
    (run loginTwiceSeq initPageState).world.liveTimers = [0, 1] ∧
    (run loginTwiceSeq initPageState).world.liveTimers.length = 2 := by
  decide

/-- C2 (code bug evaluation).  The claim states that the scheduler arms its
timer only after a successful token exchange, and that on an AuthError
during the initial login no session is created and no refresh timer is
scheduled.  Submitting a valid request whose exchange fails with AuthError
indeed creates no session, but onSubmit dispatches setIntervalIdAction
unconditionally after loginAction, so a refresh timer is armed and its
handle is live even though the exchange failed. -/
theorem authError_login_still_arms_timer :
    (submitForm ExchangeResult.authError initWorld validReq).1.auth.session = none ∧
    (submitForm ExchangeResult.authError initWorld validReq).1.auth.intervalId = some 0 ∧
    (submitForm ExchangeResult.authError initWorld validReq).1.liveTimers = [0] ∧
    countExchange (submitForm ExchangeResult.authError initWorld validReq).1.trace = 1 := by
  decide

/-- C3.  For every credential request in which any of the four fields is
empty, the submission is rejected before any network call: the schema
reports errors, handleSubmit routes to onError instead of onSubmit, and
the trace gains no token-exchange call. -/
theorem empty_field_rejected_before_network (res : ExchangeResult) (w : World)
    (form : FormValues)
    (h : form.grant_type = "" ∨ form.client_id = "" ∨ form.client_secret = "" ∨
      form.scope = "") :
    schemaErrors form ≠ [] ∧
    submitForm res w form = (onError (schemaErrors form) w, form) ∧
    countExchange (submitForm res w form).1.trace = countExchange w.trace := by
  have hne : schemaErrors form ≠ [] := by
    rw [Ne, schemaErrors_nil_iff]
    rcases h with h | h | h | h <;> simp [h]
  refine ⟨hne, ?_, ?_⟩ <;>
    cases hE : schemaErrors form with
    | nil => exact absurd hE hne
    | cons a l =>
      simp [submitForm, hE, onError, countExchange, List.filter_append]

/-- C3 witness: a concrete request with an empty client_secret is rejected
before any network call. -/
theorem empty_field_rejected_before_network_witness :
    (let form : FormValues :=
      { grant_type := "client_credentials", client_id := "a", client_secret := "",
        scope := "c" }
     (form.grant_type = "" ∨ form.client_id = "" ∨ form.client_secret = "" ∨
        form.scope = "") ∧
     (schemaErrors form ≠ [] ∧
      submitForm ExchangeResult.authError initWorld form =
        (onError (schemaErrors form) initWorld, form) ∧
      countExchange (submitForm ExchangeResult.authError initWorld form).1.trace =
        countExchange initWorld.trace)) :=
  ⟨by decide,
   empty_field_rejected_before_network ExchangeResult.authError initWorld
     { grant_type := "client_credentials", client_id := "a", client_secret := "",
       scope := "c" }
     (by decide)⟩

/-- C4.  Invoking the clear operation on an Idle scheduler (no interval id
stored) is a no-op: the live timers are untouched because clearing a null
handle does nothing, and the interval id stays empty, so the whole world is
unchanged. -/
theorem clear_on_idle_noop (w : World) (h : w.auth.intervalId = none) :
    clearIntervalIdApply w = w := by
  cases w with
  | mk auth lt nh tr =>
    cases auth with
    | mk sess iid =>
      simp only [AuthState.intervalId] at h
      subst h
      simp [clearIntervalIdApply, clearIntervalOS]

/-- C4 witness: clearing the initial (Idle) world leaves it unchanged. -/
theorem clear_on_idle_noop_witness :
    initWorld.auth.intervalId = none ∧ clearIntervalIdApply initWorld = initWorld :=
  ⟨rfl, clear_on_idle_noop initWorld rfl⟩

/-- The grant-type invariant: the form always carries the fixed grant type,
and so does every request recorded as sent in the trace. -/
def GrantInv (s : PageState) : Prop :=
  s.form.grant_type = "client_credentials" ∧
  ∀ p : FormValues, Event.exchangeCall p ∈ s.world.trace →
    p.grant_type = "client_credentials"

theorem grantInv_step (e : PageEvent) (s : PageState) (hs : GrantInv s) :
    GrantInv (step e s) := by
  obtain ⟨hform, htrace⟩ := hs
  cases e with
  | edit f v =>
    refine ⟨?_, ?_⟩
    · cases f <;> simpa [step, setField] using hform
    · intro p hp
      exact htrace p (by simpa [step] using hp)
  | renderEffect =>
    refine ⟨by simpa [step] using hform, ?_⟩
    intro p hp
    exact htrace p (by simpa [step, loginPageIntervalEffect_eq] using hp)
  | submit res =>
    cases hE : schemaErrors s.form with
    | nil =>
      refine ⟨?_, ?_⟩
      · simpa [step, submitForm, hE, onSubmitRun] using hform
      · intro p hp
        simp only [step, submitForm, hE, onSubmitRun, loginActionDispatch,
          setIntervalIdDispatch, List.mem_append, List.mem_singleton] at hp
        rcases hp with (hp | hp) | hp
        · exact htrace p hp
        · rw [show p = s.form by simpa using hp]
          exact hform
        · simp at hp
    | cons a l =>
      refine ⟨by simpa [step, submitForm, hE] using hform, ?_⟩
      intro p hp
      simp only [step, submitForm, hE, onError, List.mem_append,
        List.mem_singleton] at hp
      rcases hp with hp | hp
      · exact htrace p hp
      · simp at hp

theorem grantInv_run (evs : List PageEvent) (s : PageState) (hs : GrantInv s) :
    GrantInv (run evs s) := by
  induction evs generalizing s with
  | nil => simpa [run] using hs
  | cons e evs ih =>
    show GrantInv (run evs (step e s))
    exact ih (step e s) (grantInv_step e s hs)

/-- C5.  Every credential request the page can send carries the single
supported grant type: starting from the default values, for any sequence of
user edits (only the enabled fields are editable), effect re-runs and
submissions, every exchange call recorded in the trace has grant_type equal
to client_credentials, and so does the form itself. -/
theorem sent_requests_use_client_credentials (evs : List PageEvent) (p : FormValues)
    (h : Event.exchangeCall p ∈ (run evs initPageState).world.trace) :
    p.grant_type = "client_credentials" ∧
    (run evs initPageState).form.grant_type = "client_credentials" := by
  have hinv : GrantInv (run evs initPageState) := by
    refine grantInv_run evs initPageState ⟨rfl, ?_⟩
    intro q hq
    simp [initPageState, initWorld] at hq
  exact ⟨hinv.2 p h, hinv.1⟩

/-- C5 witness: after filling the three editable fields and logging in
twice, the request recorded in the trace carries grant_type
client_credentials. -/
theorem sent_requests_use_client_credentials_witness :
    Event.exchangeCall validReq ∈ (run loginTwiceSeq initPageState).world.trace ∧
    validReq.grant_type = "client_credentials" :=
  ⟨by decide,
   (sent_requests_use_client_credentials loginTwiceSeq validReq (by decide)).1⟩

/-- C6.  A validated submission makes exactly one token-exchange attempt and
then starts the scheduler: the trace is extended by precisely one exchange
call, immediately followed by the arming of the new timer handle, and the
exchange count rises by exactly one. -/
theorem validated_submit_single_exchange_then_arm (res : ExchangeResult) (w : World)
    (form : FormValues) (h : schemaErrors form = []) :
    (submitForm res w form).1.trace
      = w.trace ++ [Event.exchangeCall form, Event.timerArmed w.nextHandle] ∧
    countExchange (submitForm res w form).1.trace = countExchange w.trace + 1 := by
  constructor <;>
    simp [submitForm, h, onSubmitRun, loginActionDispatch, setIntervalIdDispatch,
      countExchange, List.filter_append]

/-- C6 witness: submitting the filled request from the initial world makes
one exchange call and then arms timer 0. -/
theorem validated_submit_single_exchange_then_arm_witness :
    schemaErrors validReq = [] ∧
    ((submitForm (ExchangeResult.success "tok" 3000) initWorld validReq).1.trace
        = initWorld.trace ++
          [Event.exchangeCall validReq, Event.timerArmed initWorld.nextHandle] ∧
      countExchange
          (submitForm (ExchangeResult.success "tok" 3000) initWorld validReq).1.trace
        = countExchange initWorld.trace + 1) :=
  ⟨by decide,
   validated_submit_single_exchange_then_arm (ExchangeResult.success "tok" 3000)
     initWorld validReq (by decide)⟩

/-- C7.  A validation failure has no side effect beyond local form state and
error reporting: the auth store, the live timers and the handle counter are
unchanged, the only new trace entry is a single console.error log of the
structural errors, and each empty field is reported among the field-level
errors. -/
theorem validation_failure_frame (res : ExchangeResult) (w : World) (form : FormValues)
    (h : schemaErrors form ≠ []) :
    (submitForm res w form).1.auth = w.auth ∧
    (submitForm res w form).1.liveTimers = w.liveTimers ∧
    (submitForm res w form).1.nextHandle = w.nextHandle ∧
    (submitForm res w form).1.trace
      = w.trace ++ [Event.logFieldErrors (schemaErrors form)] ∧
    (form.grant_type = "" → FormField.grantType ∈ schemaErrors form) ∧
    (form.client_id = "" → FormField.clientId ∈ schemaErrors form) ∧
    (form.client_secret = "" → FormField.clientSecret ∈ schemaErrors form) ∧
    (form.scope = "" → FormField.scope ∈ schemaErrors form) := by
  have hframe :
      (submitForm res w form).1.auth = w.auth ∧
      (submitForm res w form).1.liveTimers = w.liveTimers ∧
      (submitForm res w form).1.nextHandle = w.nextHandle ∧
      (submitForm res w form).1.trace
        = w.trace ++ [Event.logFieldErrors (schemaErrors form)] := by
    cases hE : schemaErrors form with
    | nil => exact absurd hE h
    | cons a l =>
      refine ⟨?_, ?_, ?_, ?_⟩ <;> simp [submitForm, hE, onError]
  refine ⟨hframe.1, hframe.2.1, hframe.2.2.1, hframe.2.2.2, ?_, ?_, ?_, ?_⟩
  · intro hf; simp [schemaErrors, hf]
  · intro hf; simp [schemaErrors, hf]
  · intro hf; simp [schemaErrors, hf]
  · intro hf; simp [schemaErrors, hf]

/-- C7 witness: a request with only the scope empty leaves the store and
timers of the initial world unchanged, logs exactly the scope error, and
reports it at field level. -/
theorem validation_failure_frame_witness :
    (let form : FormValues :=
      { grant_type := "client_credentials", client_id := "a", client_secret := "b",
        scope := "" }
     schemaErrors form ≠ [] ∧
     ((submitForm ExchangeResult.authError initWorld form).1.auth = initWorld.auth ∧
      (submitForm ExchangeResult.authError initWorld form).1.liveTimers
        = initWorld.liveTimers ∧
      (submitForm ExchangeResult.authError initWorld form).1.nextHandle
        = initWorld.nextHandle ∧
      (submitForm ExchangeResult.authError initWorld form).1.trace
        = initWorld.trace ++ [Event.logFieldErrors (schemaErrors form)] ∧
      (form.grant_type = "" → FormField.grantType ∈ schemaErrors form) ∧
      (form.client_id = "" → FormField.clientId ∈ schemaErrors form) ∧
      (form.client_secret = "" → FormField.clientSecret ∈ schemaErrors form) ∧
      (form.scope = "" → FormField.scope ∈ schemaErrors form))) :=
  ⟨by decide,
   validation_failure_frame ExchangeResult.authError initWorld
     { grant_type := "client_credentials", client_id := "a", client_secret := "b",
       scope := "" }
     (by decide)⟩

/-- C8.  After every submission that passes validation, the form is reset to
exactly the submitted values, whatever the exchange result was: the form
state produced by onSubmit is the submitted data itself. -/
theorem submit_resets_form_to_submitted (res : ExchangeResult) (w : World)
    (form : FormValues) (h : schemaErrors form = []) :
    (submitForm res w form).2 = form := by
  simp [submitForm, h, onSubmitRun]

/-- C8 witness: after a failed exchange of the filled request, the form still
holds exactly the submitted values. -/
theorem submit_resets_form_to_submitted_witness :
    schemaErrors validReq = [] ∧
    (submitForm ExchangeResult.authError initWorld validReq).2 = validReq :=
  ⟨by decide,
   submit_resets_form_to_submitted ExchangeResult.authError initWorld validReq
     (by decide)⟩

/-- C9.  A fresh, untouched form can never be submitted: the default values
leave client_id, client_secret and scope empty, the schema reports exactly
those three required-field errors, and submitting the defaults takes the
error path, dispatching nothing: the store, the timers and the handle
counter are unchanged and only the error log is appended. -/
theorem fresh_form_submit_takes_error_path (res : ExchangeResult) (w : World) :
    defaultValues.client_id = "" ∧
    defaultValues.client_secret = "" ∧
    defaultValues.scope = "" ∧
    schemaErrors defaultValues
      = [FormField.clientId, FormField.clientSecret, FormField.scope] ∧
    submitForm res w defaultValues
      = (onError (schemaErrors defaultValues) w, defaultValues) ∧
    (submitForm res w defaultValues).1.auth = w.auth ∧
    (submitForm res w defaultValues).1.liveTimers = w.liveTimers ∧
    countExchange (submitForm res w defaultValues).1.trace = countExchange w.trace := by
  have hD : schemaErrors defaultValues
      = [FormField.clientId, FormField.clientSecret, FormField.scope] := by decide
  refine ⟨rfl, rfl, rfl, hD, ?_, ?_, ?_, ?_⟩ <;>
    simp [submitForm, hD, onError, countExchange, List.filter_append]

/-- C10.  The interval-clearing effect leaves the auth store unchanged: for
every render in which store.intervalId is non-null, the bare call to
clearIntervalId() produces an action that is never dispatched, so the world
is identical after the effect and store.intervalId keeps its value. -/
theorem interval_effect_preserves_store (w : World) (n : Nat)
    (h : w.auth.intervalId = some n) :
    loginPageIntervalEffect w = w ∧
    (loginPageIntervalEffect w).auth.intervalId = some n := by
  refine ⟨loginPageIntervalEffect_eq w, ?_⟩
  rw [loginPageIntervalEffect_eq w]
  exact h

/-- A world in which a session is live and refresh timer 5 is armed. -/
def armedWorld : World :=
  { auth := { session := some { accessToken := "tok", expiresIn := 3000 }, intervalId := some 5 }
    liveTimers := [5]
    nextHandle := 6
    trace := [] }

/-- C10 witness: on a world with interval id 5 stored, the effect changes
nothing and the interval id is still 5 afterwards. -/
theorem interval_effect_preserves_store_witness :
    armedWorld.auth.intervalId = some 5 ∧
    (loginPageIntervalEffect armedWorld = armedWorld ∧
      (loginPageIntervalEffect armedWorld).auth.intervalId = some 5) :=
  ⟨rfl, interval_effect_preserves_store armedWorld 5 rfl⟩
